import Mathlib

/-!
Verification of the WhisperX ingestion-and-broadcast daemon
(`daemon_state.py` and `watcher.py`) against its specification.

The embedding is shallow: each Python function is translated into an
executable Lean function over explicit state.  External collaborators
(disk writes, `ffprobe`, the transcription subprocess, the filesystem)
are modelled as parameters recording their observable outcome; Python
exceptions are modelled by returning `Option PyErr` alongside the
mutated state (a raised exception still leaves earlier in-place
mutations visible, as in CPython).  Timestamps and uuids are opaque
strings supplied by the environment; float durations are modelled as
naturals because the code never computes with them.
-/

/-- Python exceptions relevant to the daemon code. `osError` stands for a
disk-write failure inside `_save_state` / `_save_history`; `unboundLocal`
is the `UnboundLocalError` raised when a local variable is referenced
before assignment; `attributeError` is raised by `cmd.get` when `cmd` is
not a dict. -/
inductive PyErr where
  | osError
  | unboundLocal
  | attributeError
  deriving DecidableEq, Repr

/-- Rendering of an exception by `str(e)`, used by the top-level handler
in `_process_file` when it records a failure. -/
def pyErrMsg : PyErr → String
  | .osError => "disk write failed"
  | .unboundLocal => "local variable archive_path referenced before assignment"
  | .attributeError => "object has no attribute get"

/-- `daemon_state.TranscriptionProgress`. -/
structure TranscriptionProgress where
  filename : String
  started_at : String
  duration_seconds : Nat
  progress_percent : Nat
  stage : String
  deriving DecidableEq, Repr

/-- `daemon_state.CompletedTranscript`. -/
structure CompletedTranscript where
  id : String
  original_filename : String
  transcript_path : String
  completed_at : String
  duration_seconds : Nat
  language : String
  speaker_count : Nat
  success : Bool
  error : Option String
  deriving DecidableEq, Repr

/-- `daemon_state.DaemonState` (the in-memory `_state` of `StateManager`). -/
structure DaemonState where
  status : String
  current : Option TranscriptionProgress
  queue : List String
  last_updated : String
  error_message : Option String
  deriving DecidableEq, Repr

/-- The JSON document written by `_save_state` to `state.json`
(`last_updated` is re-stamped with `datetime.now()` at write time). -/
structure StateDoc where
  status : String
  current : Option TranscriptionProgress
  queue : List String
  last_updated : String
  error_message : Option String
  deriving DecidableEq, Repr

/-- The mutable fields of `daemon_state.StateManager`, plus the two
on-disk documents it owns (`state.json` as `disk_state`, the
`transcripts` array of `history.json` as `disk_history`). -/
structure StateManager where
  state : DaemonState
  history : List CompletedTranscript
  disk_state : Option StateDoc
  disk_history : List CompletedTranscript
  deriving DecidableEq, Repr

/-- `StateManager._save_state`.  `ok` is the outcome of the disk write
(`Path.write_text`); the source wraps it in no try/except, so on failure
the `OSError` propagates to the caller. -/
def save_state (ok : Bool) (now : String) (sm : StateManager) :
    StateManager × Option PyErr :=
  if ok then
    ({sm with disk_state := some ⟨sm.state.status, sm.state.current,
        sm.state.queue, now, sm.state.error_message⟩}, none)
  else (sm, some .osError)

/-- `StateManager._save_history`: writes `_history[:50]`; no try/except,
a failing write propagates. -/
def save_history (ok : Bool) (sm : StateManager) :
    StateManager × Option PyErr :=
  if ok then ({sm with disk_history := sm.history.take 50}, none)
  else (sm, some .osError)

/-- `StateManager.set_idle`. -/
def set_idle (ok : Bool) (now : String) (sm : StateManager) :
    StateManager × Option PyErr :=
  let st1 := {sm.state with status := "idle", current := none, error_message := none}
  save_state ok now {sm with state := st1}

/-- `StateManager.set_transcribing_sync`.  Note: it mutates and saves
state only; it does not build an event and does not broadcast. -/
def set_transcribing_sync (ok : Bool) (now filename : String)
    (duration_seconds : Nat) (sm : StateManager) :
    StateManager × Option PyErr :=
  let prog : TranscriptionProgress := ⟨filename, now, duration_seconds, 0, "loading"⟩
  let st1 := {sm.state with status := "transcribing", current := some prog, error_message := none}
  save_state ok now {sm with state := st1}

/-- `StateManager.set_completed_sync`.  `id` models `str(uuid.uuid4())[:8]`,
`now` models `datetime.now().isoformat()`; `hok`/`sok` are the outcomes of
the history and state disk writes. -/
def set_completed_sync (hok sok : Bool) (id now filename transcript_path : String)
    (duration_seconds : Nat) (language : String) (speaker_count : Nat)
    (sm : StateManager) : StateManager × Option PyErr :=
  let entry : CompletedTranscript :=
    ⟨id, filename, transcript_path, now, duration_seconds, language,
     speaker_count, true, none⟩
  let sm1 := {sm with history := (entry :: sm.history).take 50}
  let r := save_history hok sm1
  match r.2 with
  | some e => (r.1, some e)
  | none => set_idle sok now r.1

/-- `StateManager.set_failed_sync`. -/
def set_failed_sync (hok sok : Bool) (id now filename error : String)
    (sm : StateManager) : StateManager × Option PyErr :=
  let entry : CompletedTranscript :=
    ⟨id, filename, "", now, 0, "", 0, false, some error⟩
  let sm1 := {sm with history := (entry :: sm.history).take 50}
  let r := save_history hok sm1
  match r.2 with
  | some e => (r.1, some e)
  | none =>
      let st1 := {r.1.state with status := "error", current := none, error_message := some error}
      save_state sok now {r.1 with state := st1}

/-- `StateManager.update_queue`. -/
def update_queue (ok : Bool) (now : String) (q : List String)
    (sm : StateManager) : StateManager × Option PyErr :=
  save_state ok now {sm with state := {sm.state with queue := q}}

/-- Result of `StateManager.broadcast`: how many times the event was
serialized (`json.dumps` runs once, before the write loop, and only when
the client list is non-empty), which clients received the message (those
whose write+drain did not raise), the surviving client list, and whether
the call itself raised (it never does: per-client connection errors are
caught and collected). -/
structure BroadcastResult where
  serializations : Nat
  delivered : List Nat
  remaining : List Nat
  raised : Option PyErr
  deriving DecidableEq, Repr

/-- `StateManager.broadcast`.  Clients are identified by numeric ids;
`write_fails c = true` means `c.write`/`c.drain` raises a connection
error (`ConnectionResetError`, `BrokenPipeError`, `OSError`) for this
event.  Failed clients are collected in `disconnected` and then removed
one by one with `list.remove`, which the fold over `List.erase` mirrors. -/
def broadcast (clients : List Nat) (write_fails : Nat → Bool) : BroadcastResult :=
  if clients.isEmpty then ⟨0, [], clients, none⟩
  else
    let disconnected := clients.filter write_fails
    ⟨1, clients.filter (fun c => !write_fails c),
      disconnected.foldl List.erase clients, none⟩

/-- JSON values, as produced by `json.loads` on one client line
(objects parsed by CPython have distinct keys). -/
inductive JVal where
  | jnull
  | jbool (b : Bool)
  | jnum (n : Int)
  | jstr (s : String)
  | jarr (xs : List JVal)
  | jobj (fields : List (String × JVal))

/-- `dict.get` on a parsed JSON object. -/
def dict_get (key : String) : List (String × JVal) → Option JVal
  | [] => none
  | (k, v) :: rest => if k = key then some v else dict_get key rest

/-- The two reply documents `_handle_client` can send for a request line. -/
inductive Reply where
  | stateReply
  | historyReply
  deriving DecidableEq, Repr

/-- One iteration of the read loop in `StateManager._handle_client` for a
non-empty line.  The input is the outcome of `json.loads` (`Except.error`
for a `json.JSONDecodeError`, which the source catches and ignores).
On a parsed non-dict value, `cmd.get("command")` raises `AttributeError`,
which no handler in the loop catches. -/
def handle_line (decoded : Except Unit JVal) : List Reply × Option PyErr :=
  match decoded with
  | .error _ => ([], none)
  | .ok v =>
    match v with
    | .jobj fields =>
      match dict_get "command" fields with
      | some (.jstr "status") => ([.stateReply], none)
      | some (.jstr "history") => ([.historyReply], none)
      | _ => ([], none)
    | _ => ([], some .attributeError)

/-- Whether a parsed value is a recognized request: an object whose
`command` field is the string `status` or `history`. -/
def recognized_request (v : JVal) : Bool :=
  match v with
  | .jobj fields =>
    match dict_get "command" fields with
    | some (.jstr s) => s == "status" || s == "history"
    | _ => false
  | _ => false

/-- Whether a parsed value is a JSON object. -/
def is_jobj (v : JVal) : Bool :=
  match v with
  | .jobj _ => true
  | _ => false

/-- Effect of one client line on the connection: if the loop body raises,
the `finally` block removes the writer from `_clients` and closes it
(second component `false`); otherwise the connection stays open and
registered. -/
def client_after_line (clients : List Nat) (w : Nat)
    (decoded : Except Unit JVal) : List Nat × Bool :=
  match (handle_line decoded).2 with
  | none => (clients, true)
  | some _ => (clients.erase w, false)

/-- The body of the polling loop in `TranscriptionHandler._wait_for_file_stable`.
`sizes i` is the result of `file_path.stat().st_size` at iteration `i`
(`none` when `stat` raises `OSError`/`FileNotFoundError`, in which case the
source sleeps and continues with `last_size` and `stable_count` unchanged).
Returns the number of polling iterations executed and whether the loop
exited through the `break` (size declared stable). -/
def wait_stable_loop (sizes : Nat → Option Nat) :
    Nat → Nat → Int → Nat → Nat × Bool
  | 0, _, _, _ => (0, false)
  | fuel + 1, i, last, stable =>
    match sizes i with
    | none =>
      let r := wait_stable_loop sizes fuel (i + 1) last stable
      (r.1 + 1, r.2)
    | some c =>
      if (c : Int) = last ∧ 0 < c then
        if 3 ≤ stable + 1 then (1, true)
        else
          let r := wait_stable_loop sizes fuel (i + 1) (c : Int) (stable + 1)
          (r.1 + 1, r.2)
      else
        let r := wait_stable_loop sizes fuel (i + 1) (c : Int) 0
        (r.1 + 1, r.2)

/-- `TranscriptionHandler._wait_for_file_stable` with the default
`max_wait = 30`: `last_size` starts at `-1`, `stable_count` at `0`. -/
def wait_for_file_stable (sizes : Nat → Option Nat) : Nat × Bool :=
  wait_stable_loop sizes 30 0 (-1) 0

/-- The candidate archive file names tried by the collision loop in
`_process_file`: index 0 is `file_path.name`, index `k ≥ 1` is
`f"{stem}_{k}{suffix}"`. -/
def arch_candidate (stem suffix : String) : Nat → String
  | 0 => stem ++ suffix
  | Nat.succ k => stem ++ "_" ++ toString (k + 1) ++ suffix

/-- First index `≥ k` whose candidate does not exist, searched in
increasing order as the `while archive_path.exists()` loop does.  `fuel`
bounds the search; the theorems below assume some candidate within the
fuel is free, which models the fact that the archive directory is finite
so the source loop terminates. -/
def search_free (ex : String → Bool) (cand : Nat → String) :
    Nat → Nat → Nat
  | 0, k => k
  | fuel + 1, k => if ex (cand k) then search_free ex cand fuel (k + 1) else k

/-- Index of the archive destination chosen for a file `stem ++ suffix`,
where `ex` tells which names already exist in the archive directory and
`bound` is an index known to be free (finiteness of the directory). -/
def archive_dest_idx (ex : String → Bool) (stem suffix : String) (bound : Nat) : Nat :=
  search_free ex (arch_candidate stem suffix) (bound + 1) 0

/-- The archive destination name chosen by the collision loop. -/
def archive_dest (ex : String → Bool) (stem suffix : String) (bound : Nat) : String :=
  arch_candidate stem suffix (archive_dest_idx ex stem suffix bound)

/-- Python `str.lower()` (ASCII case folding), written over the char
list so that it reduces in the kernel. -/
def str_lower (s : String) : String :=
  ⟨s.data.map Char.toLower⟩

/-- `SUPPORTED_FORMATS` from `watcher.py`. -/
def SUPPORTED_FORMATS : List String :=
  [".m4a", ".mp4", ".mov", ".wav", ".mp3", ".flac", ".ogg"]

/-- A `pathlib.Path` as the watcher uses it: directory part, stem and
suffix.  `name` is `stem ++ suffix`; `key` is `str(file_path)`, the
string used in the `processing_files`/`processed_files` sets. -/
structure FPath where
  parent : String
  stem : String
  suffix : String
  deriving DecidableEq, Repr

def FPath.name (p : FPath) : String := p.stem ++ p.suffix

def FPath.key (p : FPath) : String := p.parent ++ "/" ++ p.name

/-- Observable actions performed by `_process_file`, in execution order. -/
inductive Act where
  | markProcessing
  | setTranscribing
  | runTranscription
  | deleteSource
  | deleteMarker
  | archiveMove
  | markProcessed
  | setCompleted
  | setFailed
  | discardProcessing
  deriving DecidableEq, Repr

/-- The `result_info` dict returned by `_run_transcription`. -/
structure RInfo where
  language : String
  speaker_count : Nat
  error : Option String
  deriving DecidableEq, Repr

/-- Environment of one `_process_file` call: outcomes of all external
collaborators.  `sizes` feeds the stability poll; `exists_after_wait` is
`file_path.exists()` after the wait; `run_success`/`run_info` are the
result of `_run_transcription`; `marker_exists` is whether
`<name>.noarchive` exists; `archive_ex`/`archive_free_bound` describe the
archive directory; `state_write_ok`/`history_write_ok` are the outcomes
of `state.json`/`history.json` writes; `completed_id`/`failed_id` model
the uuids, `now` the timestamps. -/
structure ProcEnv where
  sizes : Nat → Option Nat
  exists_after_wait : Bool
  ffprobe_duration : Nat
  run_success : Bool
  run_info : RInfo
  marker_exists : Bool
  archive_ex : String → Bool
  archive_free_bound : Nat
  state_write_ok : Bool
  history_write_ok : Bool
  completed_id : String
  failed_id : String
  now : String
  transcripts_dir : String

/-- State of the `TranscriptionHandler` (plus a log of its filesystem
effects) threaded through `_process_file` calls.  `trace` records the
actions in order; `runs` counts `_run_transcription` invocations;
`bridge_events` records the event kinds submitted via `_emit_event`
(the Bridge); `deleted_files` and `archive_adds` record `unlink` and
`shutil.move` targets. -/
structure WSt where
  processing : List String
  processed : List String
  sm : StateManager
  stats_total : Nat
  stats_successful : Nat
  stats_failed : Nat
  stats_current_file : Option String
  stats_last_processed : Option String
  trace : List Act
  runs : Nat
  bridge_events : List String
  deleted_files : List String
  archive_adds : List String
  deriving DecidableEq, Repr

/-- `TranscriptionHandler._emit_event`: schedules a broadcast coroutine on
the server loop.  It is defined in the source but never invoked anywhere
in `_process_file`, so no state-change event ever reaches the Bridge on
the ingestion path. -/
def emit_event (kind : String) (st : WSt) : WSt :=
  {st with bridge_events := st.bridge_events ++ [kind]}

/-- The `except Exception` handler at the bottom of `_process_file`:
records the failure via `set_failed_sync` (whose own disk write may raise
again, in which case the new exception escapes and the `discard` is
skipped) and removes the path from `processing_files`. -/
def except_handler (env : ProcEnv) (p : FPath) (e : PyErr) (st : WSt) :
    WSt × Option PyErr :=
  let r := set_failed_sync env.history_write_ok env.state_write_ok
    env.failed_id env.now p.name (pyErrMsg e) st.sm
  let st1 := {st with sm := r.1, trace := st.trace ++ [Act.setFailed]}
  match r.2 with
  | some e2 => (st1, some e2)
  | none =>
    ({st1 with processing := st1.processing.erase p.key,
               trace := st1.trace ++ [Act.discardProcessing]}, none)

/-- `TranscriptionHandler._process_file`, translated statement by
statement.  Early `return`s yield `(st, none)`; an exception raised in
the `try` body transfers control to `except_handler`.  In the success
branch the local `archive_path` is modelled as `Option String`: it is
assigned only in the archive branch, so in the `.noarchive` branch the
final success panel, which interpolates `archive_path.name`, raises
`UnboundLocalError`. -/
def process_file (env : ProcEnv) (p : FPath) (st : WSt) : WSt × Option PyErr :=
  if !(SUPPORTED_FORMATS.contains (str_lower p.suffix)) then (st, none)
  else if p.key ∈ st.processing ∨ p.key ∈ st.processed then (st, none)
  else
    let _stable := wait_for_file_stable env.sizes
    if !env.exists_after_wait then (st, none)
    else
      let st := {st with processing := p.key :: st.processing,
                         trace := st.trace ++ [Act.markProcessing]}
      let st := {st with stats_current_file := some p.name}
      let duration := env.ffprobe_duration
      let r1 := set_transcribing_sync env.state_write_ok env.now p.name duration st.sm
      let st := {st with sm := r1.1, trace := st.trace ++ [Act.setTranscribing]}
      match r1.2 with
      | some e => except_handler env p e st
      | none =>
        let success := env.run_success
        let info := env.run_info
        let st := {st with runs := st.runs + 1,
                           trace := st.trace ++ [Act.runTranscription]}
        let st := {st with stats_total := st.stats_total + 1,
                           stats_successful := st.stats_successful + (if success then 1 else 0),
                           stats_failed := st.stats_failed + (if success then 0 else 1),
                           stats_last_processed := if success then some p.name else st.stats_last_processed,
                           stats_current_file := none}
        if success then
          let branch :=
            if env.marker_exists then
              ({st with deleted_files := st.deleted_files ++ [p.key, p.key ++ ".noarchive"],
                        trace := st.trace ++ [Act.deleteSource, Act.deleteMarker]},
               (none : Option String))
            else
              let dest := archive_dest env.archive_ex p.stem p.suffix env.archive_free_bound
              ({st with archive_adds := st.archive_adds ++ [dest],
                        trace := st.trace ++ [Act.archiveMove]},
               some dest)
          let st2 := branch.1
          let archive_path := branch.2
          let st3 := {st2 with processed := p.key :: st2.processed,
                               trace := st2.trace ++ [Act.markProcessed]}
          let transcript_path := env.transcripts_dir ++ "/" ++ p.stem ++ ".txt"
          let r2 := set_completed_sync env.history_write_ok env.state_write_ok
            env.completed_id env.now p.name transcript_path duration
            info.language info.speaker_count st3.sm
          let st4 := {st3 with sm := r2.1, trace := st3.trace ++ [Act.setCompleted]}
          match r2.2 with
          | some e => except_handler env p e st4
          | none =>
            match archive_path with
            | none => except_handler env p .unboundLocal st4
            | some _ =>
              ({st4 with processing := st4.processing.erase p.key,
                         trace := st4.trace ++ [Act.discardProcessing]}, none)
        else
          let error_msg := info.error.getD "Unknown error"
          let r2 := set_failed_sync env.history_write_ok env.state_write_ok
            env.failed_id env.now p.name error_msg st.sm
          let st2 := {st with sm := r2.1, trace := st.trace ++ [Act.setFailed]}
          match r2.2 with
          | some e => except_handler env p e st2
          | none =>
            ({st2 with processing := st2.processing.erase p.key,
                       trace := st2.trace ++ [Act.discardProcessing]}, none)

/-- Sequence-containment check used to model Python `in` on strings. -/
def char_seq_in (needle : List Char) : List Char → Bool
  | [] => needle.isEmpty
  | c :: rest => needle.isPrefixOf (c :: rest) || char_seq_in needle rest

/-- Python `needle in hay` for strings. -/
def str_contains_sub (hay needle : String) : Bool :=
  char_seq_in needle.toList hay.toList

/-- The command list built by `TranscriptionHandler._run_transcription`:
interpreter, script, file path, output options, plus `--no-diarize`
exactly when the lowercased stem contains `-nospeakers`. -/
def run_transcription_cmd (py_exe script_path transcripts_dir : String)
    (p : FPath) : List String :=
  let cmd := [py_exe, script_path, p.key, "-o", transcripts_dir, "--all-formats"]
  if str_contains_sub (str_lower p.stem) "-nospeakers" then cmd ++ ["--no-diarize"]
  else cmd

/-- A concrete `StateManager` as produced at daemon startup: idle state,
empty history, used as input for the concrete counterexamples/witnesses. -/
def sm_init : StateManager :=
  ⟨⟨"idle", none, [], "t0", none⟩, [], none, []⟩

/-- Claim C2 (counterexample): the sync mutators do not swallow
persistence errors.  On a concrete idle state, `set_idle` with a failing
`state.json` write raises `OSError` to its caller instead of logging and
returning normally (there is no try/except around `write_text` in
`_save_state`/`_save_history`), refuting the claim that the error is
never raised; the in-memory mutation has still happened. -/
theorem claim_c2_counterexample :
    (set_idle false "t1" sm_init).2 = some PyErr.osError ∧
    (set_idle false "t1" sm_init).1.state.status = "idle" := by
  constructor <;> rfl

/-- Claim C2 (amended): every sync mutator performs its in-memory
mutation before the corresponding disk write, so the memory effect of
everything sequenced before a failing write survives; but a failing
write of `state.json` or `history.json` is raised to the caller (second
component `some osError`), and mutations sequenced after the failing
write do not happen (`set_completed_sync` does not reach `set_idle` and
`set_failed_sync` does not set status `error` when the history write
fails). -/
theorem claim_c2_amended (b hb sb : Bool) (now id filename tpath lang err : String)
    (dur spk : Nat) (q : List String) (sm : StateManager) :
    ((set_idle b now sm).1.state.status = "idle" ∧
      (set_idle b now sm).1.state.current = none ∧
      (set_idle b now sm).1.state.error_message = none ∧
      (set_idle b now sm).2 = (if b then none else some PyErr.osError)) ∧
    ((set_transcribing_sync b now filename dur sm).1.state.status = "transcribing" ∧
      (set_transcribing_sync b now filename dur sm).1.state.current =
        some ⟨filename, now, dur, 0, "loading"⟩ ∧
      (set_transcribing_sync b now filename dur sm).2 =
        (if b then none else some PyErr.osError)) ∧
    ((update_queue b now q sm).1.state.queue = q ∧
      (update_queue b now q sm).2 = (if b then none else some PyErr.osError)) ∧
    ((set_completed_sync hb sb id now filename tpath dur lang spk sm).1.history =
        (⟨id, filename, tpath, now, dur, lang, spk, true, none⟩ :: sm.history).take 50 ∧
      (set_completed_sync hb sb id now filename tpath dur lang spk sm).1.state.status =
        (if hb then "idle" else sm.state.status) ∧
      (set_completed_sync hb sb id now filename tpath dur lang spk sm).2 =
        (if hb then (if sb then none else some PyErr.osError) else some PyErr.osError)) ∧
    ((set_failed_sync hb sb id now filename err sm).1.history =
        (⟨id, filename, "", now, 0, "", 0, false, some err⟩ :: sm.history).take 50 ∧
      (set_failed_sync hb sb id now filename err sm).1.state.status =
        (if hb then "error" else sm.state.status) ∧
      (set_failed_sync hb sb id now filename err sm).2 =
        (if hb then (if sb then none else some PyErr.osError) else some PyErr.osError)) := by
  cases b <;> cases hb <;> cases sb <;>
    simp [set_idle, set_transcribing_sync, update_queue, set_completed_sync,
      set_failed_sync, save_state, save_history]

/-- Claim C8: after `set_completed_sync` (resp. `set_failed_sync`) with
succeeding disk writes, the new entry sits at position 0 of the
in-memory history, the history is the new entry followed by the first 49
old entries (so the oldest entry beyond the 50-cap is evicted), its
length is at most 50, and the persisted `history.json` document equals
it (hence also has at most 50 entries). -/
theorem claim_c8_history_cap (id now filename tpath lang err : String)
    (dur spk : Nat) (sm : StateManager) :
    ((set_completed_sync true true id now filename tpath dur lang spk sm).1.history.head? =
        some ⟨id, filename, tpath, now, dur, lang, spk, true, none⟩ ∧
      (set_completed_sync true true id now filename tpath dur lang spk sm).1.history =
        ⟨id, filename, tpath, now, dur, lang, spk, true, none⟩ :: sm.history.take 49 ∧
      (set_completed_sync true true id now filename tpath dur lang spk sm).1.history.length ≤ 50 ∧
      (set_completed_sync true true id now filename tpath dur lang spk sm).1.disk_history =
        (set_completed_sync true true id now filename tpath dur lang spk sm).1.history) ∧
    ((set_failed_sync true true id now filename err sm).1.history.head? =
        some ⟨id, filename, "", now, 0, "", 0, false, some err⟩ ∧
      (set_failed_sync true true id now filename err sm).1.history =
        ⟨id, filename, "", now, 0, "", 0, false, some err⟩ :: sm.history.take 49 ∧
      (set_failed_sync true true id now filename err sm).1.history.length ≤ 50 ∧
      (set_failed_sync true true id now filename err sm).1.disk_history =
        (set_failed_sync true true id now filename err sm).1.history) := by
  refine ⟨⟨?_, ?_, ?_, ?_⟩, ⟨?_, ?_, ?_, ?_⟩⟩ <;>
    simp [set_completed_sync, set_failed_sync, set_idle, save_state, save_history,
      List.take_succ_cons, List.take_take, List.length_take]

/-- Claim C10: the transcription command contains the `--no-diarize` flag
exactly when the lowercased stem of the dispatched file contains the
substring `-nospeakers`; the hypotheses rule out the degenerate case of
one of the other command arguments literally being the flag string. -/
theorem claim_c10_nospeakers (py_exe script_path transcripts_dir : String) (p : FPath)
    (h1 : py_exe ≠ "--no-diarize") (h2 : script_path ≠ "--no-diarize")
    (h3 : p.key ≠ "--no-diarize") (h4 : transcripts_dir ≠ "--no-diarize") :
    ("--no-diarize" ∈ run_transcription_cmd py_exe script_path transcripts_dir p) ↔
      str_contains_sub (str_lower p.stem) "-nospeakers" = true := by
  unfold run_transcription_cmd
  by_cases h : str_contains_sub (str_lower p.stem) "-nospeakers" = true
  · simp [h]
  · simp only [Bool.not_eq_true] at h
    simp [h, h1.symm, h2.symm, h3.symm, h4.symm]

/-- Witness for C10: a file whose stem contains `-NoSpeakers` (mixed
case) gets the flag. -/
theorem claim_c10_witness :
    ("/usr/bin/python3" ≠ "--no-diarize" ∧ "./transcribe.py" ≠ "--no-diarize" ∧
      (FPath.mk "/incoming" "standup-NoSpeakers" ".m4a").key ≠ "--no-diarize" ∧
      "./transcripts" ≠ "--no-diarize") ∧
    (("--no-diarize" ∈ run_transcription_cmd "/usr/bin/python3" "./transcribe.py"
        "./transcripts" (FPath.mk "/incoming" "standup-NoSpeakers" ".m4a")) ↔
      str_contains_sub (str_lower (FPath.mk "/incoming" "standup-NoSpeakers" ".m4a").stem)
        "-nospeakers" = true) := by
  refine ⟨by decide, claim_c10_nospeakers _ _ _ _ ?_ ?_ ?_ ?_⟩ <;> decide

/-- Erasing a list of elements not containing `a` from `a :: t` keeps `a`
in front. -/
theorem foldl_erase_cons (a : Nat) :
    ∀ (xs t : List Nat), a ∉ xs →
      xs.foldl List.erase (a :: t) = a :: xs.foldl List.erase t := by
  intro xs
  induction xs with
  | nil => intro t _; rfl
  | cons x xs ih =>
    intro t hax
    have hxa : ¬(a = x) := fun h => hax (h ▸ List.mem_cons_self x xs)
    have hax' : a ∉ xs := fun h => hax (List.mem_cons_of_mem x h)
    simp only [List.foldl_cons]
    rw [List.erase_cons_tail (by simpa using hxa)]
    exact ih (t.erase x) hax'

/-- Removing, one by one, the elements of `l.filter p` from a
duplicate-free `l` leaves exactly the elements with `¬ p`. -/
theorem foldl_erase_filter (p : Nat → Bool) :
    ∀ l : List Nat, l.Nodup →
      (l.filter p).foldl List.erase l = l.filter (fun c => !p c) := by
  intro l
  induction l with
  | nil => intro _; rfl
  | cons a t ih =>
    intro hnd
    obtain ⟨ha, ht⟩ := List.nodup_cons.mp hnd
    by_cases hp : p a
    · have h1 : (a :: t).filter p = a :: t.filter p := by simp [hp]
      have h2 : (a :: t).filter (fun c => !p c) = t.filter (fun c => !p c) := by simp [hp]
      rw [h1, h2, List.foldl_cons, List.erase_cons_head]
      exact ih ht
    · have hp' : p a = false := by simpa using hp
      have h1 : (a :: t).filter p = t.filter p := by simp [hp']
      have h2 : (a :: t).filter (fun c => !p c) = a :: t.filter (fun c => !p c) := by
        simp [hp']
      have hna : a ∉ t.filter p := fun h => ha (List.mem_of_mem_filter h)
      rw [h1, h2, foldl_erase_cons a (t.filter p) t hna, ih ht]

/-- Claim C9 (counterexample): with no connected clients `broadcast`
returns before `json.dumps`, so the event is serialized zero times, not
exactly once as claimed for every client set. -/
theorem claim_c9_counterexample :
    (broadcast [] (fun _ => false)).serializations = 0 ∧
    ¬ (broadcast [] (fun _ => false)).serializations = 1 := by
  exact ⟨rfl, by simp [broadcast]⟩

/-- Claim C9 (amended): when at least one client is connected the event
is serialized exactly once, every client whose write does not raise is
delivered the message, every client whose write raises a connection
error is removed from the active set (the survivors are exactly the
non-failing clients, for a duplicate-free client list), and the call
itself raises nothing; with no clients it returns immediately with zero
serializations. -/
theorem claim_c9_amended (clients : List Nat) (write_fails : Nat → Bool)
    (hne : clients ≠ []) (hnd : clients.Nodup) :
    (broadcast clients write_fails).serializations = 1 ∧
    (broadcast clients write_fails).delivered =
      clients.filter (fun c => !write_fails c) ∧
    (broadcast clients write_fails).remaining =
      clients.filter (fun c => !write_fails c) ∧
    (broadcast clients write_fails).raised = none ∧
    (broadcast [] write_fails).serializations = 0 := by
  have hemp : clients.isEmpty = false := by
    cases clients with
    | nil => exact absurd rfl hne
    | cons a t => rfl
  refine ⟨?_, ?_, ?_, ?_, rfl⟩ <;>
    simp [broadcast, hemp, foldl_erase_filter write_fails clients hnd]

/-- Witness for C9 at a concrete input: clients 1 and 2, client 2's
write raises. -/
theorem claim_c9_witness :
    (([1, 2] : List Nat) ≠ [] ∧ ([1, 2] : List Nat).Nodup) ∧
    ((broadcast [1, 2] (fun c => c == 2)).serializations = 1 ∧
      (broadcast [1, 2] (fun c => c == 2)).delivered =
        ([1, 2] : List Nat).filter (fun c => !(c == 2)) ∧
      (broadcast [1, 2] (fun c => c == 2)).remaining =
        ([1, 2] : List Nat).filter (fun c => !(c == 2)) ∧
      (broadcast [1, 2] (fun c => c == 2)).raised = none ∧
      (broadcast [] (fun c => c == 2)).serializations = 0) := by
  exact ⟨⟨by decide, by decide⟩,
    claim_c9_amended [1, 2] (fun c => c == 2) (by decide) (by decide)⟩

/-- Claim C4 (counterexample): the line `[]` is well-formed JSON but not
a recognized request; the server indeed sends no reply, but `cmd.get`
raises an uncaught `AttributeError`, after which the `finally` block
deregisters and closes the connection — contradicting the claim that no
error is raised and the connection stays open. -/
theorem claim_c4_counterexample :
    recognized_request (JVal.jarr []) = false ∧
    handle_line (Except.ok (JVal.jarr [])) = ([], some PyErr.attributeError) ∧
    client_after_line [7] 7 (Except.ok (JVal.jarr [])) = ([], false) := by
  exact ⟨rfl, rfl, rfl⟩

/-- Claim C4 (amended): a line that fails JSON decoding, or decodes to an
object without a recognized command, is ignored — no reply, no raised
error, connection open and registered; but a line decoding to a
non-object JSON value raises `AttributeError` in `cmd.get`, which no
handler catches: no reply is sent, yet the connection is closed and
removed from the client set. -/
theorem claim_c4_amended (fields : List (String × JVal)) (v : JVal) (w : Nat)
    (reg : List Nat)
    (hfields : recognized_request (JVal.jobj fields) = false)
    (hv : is_jobj v = false) :
    handle_line (Except.error ()) = ([], none) ∧
    client_after_line reg w (Except.error ()) = (reg, true) ∧
    handle_line (Except.ok (JVal.jobj fields)) = ([], none) ∧
    client_after_line reg w (Except.ok (JVal.jobj fields)) = (reg, true) ∧
    handle_line (Except.ok v) = ([], some PyErr.attributeError) ∧
    client_after_line reg w (Except.ok v) = (reg.erase w, false) := by
  have hobj : handle_line (Except.ok (JVal.jobj fields)) = ([], none) := by
    simp only [recognized_request] at hfields
    simp only [handle_line]
    rcases hdg : dict_get "command" fields with _ | val
    · rfl
    · rw [hdg] at hfields
      cases val with
      | jstr s =>
        have hs : (s == "status" || s == "history") = false := hfields
        split
        · rename_i heq
          injection heq with heq2
          injection heq2 with heq3
          rw [heq3] at hs
          simp at hs
        · rename_i heq
          injection heq with heq2
          injection heq2 with heq3
          rw [heq3] at hs
          simp at hs
        · rfl
      | jnull => rfl
      | jbool b => rfl
      | jnum n => rfl
      | jarr xs => rfl
      | jobj fs => rfl
  have hraise : handle_line (Except.ok v) = ([], some PyErr.attributeError) := by
    cases v <;> first | rfl | (rw [is_jobj] at hv; exact absurd hv (by simp))
  refine ⟨rfl, rfl, hobj, ?_, hraise, ?_⟩
  · rw [client_after_line, hobj]
  · rw [client_after_line, hraise]

/-- Witness for C4 at a concrete input: an object with an unrecognized
command and the non-object value `3`. -/
theorem claim_c4_witness :
    (recognized_request (JVal.jobj [("command", JVal.jstr "noop")]) = false ∧
      is_jobj (JVal.jnum 3) = false) ∧
    (handle_line (Except.error ()) = ([], none) ∧
      client_after_line [7, 9] 7 (Except.error ()) = ([7, 9], true) ∧
      handle_line (Except.ok (JVal.jobj [("command", JVal.jstr "noop")])) = ([], none) ∧
      client_after_line [7, 9] 7 (Except.ok (JVal.jobj [("command", JVal.jstr "noop")])) =
        ([7, 9], true) ∧
      handle_line (Except.ok (JVal.jnum 3)) = ([], some PyErr.attributeError) ∧
      client_after_line [7, 9] 7 (Except.ok (JVal.jnum 3)) =
        (([7, 9] : List Nat).erase 7, false)) := by
  exact ⟨⟨rfl, rfl⟩,
    claim_c4_amended [("command", JVal.jstr "noop")] (JVal.jnum 3) 7 [7, 9] rfl rfl⟩

/-- `search_free` finds the least free candidate index at or above its
start, provided some index within the fuel window is free. -/
theorem search_free_spec (ex : String → Bool) (cand : Nat → String) :
    ∀ fuel k : Nat, (∃ j, k ≤ j ∧ j < k + fuel ∧ ex (cand j) = false) →
      ex (cand (search_free ex cand fuel k)) = false ∧
      k ≤ search_free ex cand fuel k ∧
      ∀ m, k ≤ m → m < search_free ex cand fuel k → ex (cand m) = true := by
  intro fuel
  induction fuel with
  | zero =>
    intro k h
    obtain ⟨j, hj1, hj2, _⟩ := h
    omega
  | succ n ih =>
    intro k h
    by_cases hk : ex (cand k) = true
    · have h' : ∃ j, k + 1 ≤ j ∧ j < (k + 1) + n ∧ ex (cand j) = false := by
        obtain ⟨j, hj1, hj2, hj3⟩ := h
        have hjk : j ≠ k := fun he => by rw [he, hk] at hj3; cases hj3
        exact ⟨j, by omega, by omega, hj3⟩
      have r := ih (k + 1) h'
      have hstep : search_free ex cand (n + 1) k = search_free ex cand n (k + 1) := by
        simp [search_free, hk]
      rw [hstep]
      refine ⟨r.1, by omega, ?_⟩
      intro m hm1 hm2
      rcases Nat.eq_or_lt_of_le hm1 with heq | hlt
      · subst heq; exact hk
      · exact r.2.2 m hlt hm2
    · have hk' : ex (cand k) = false := by simpa using hk
      have hstep : search_free ex cand (n + 1) k = k := by
        simp [search_free, hk']
      rw [hstep]
      exact ⟨hk', Nat.le_refl k, fun m h1 h2 => by omega⟩

/-- Claim C7: when the plain archive name (candidate 0) already exists,
the chosen destination is `stem_k + suffix` for the smallest positive
`k` whose name is free: the destination does not exist (no overwrite),
its index is at least 1, and every smaller candidate index is occupied.
`hfree` expresses that the finite archive directory has a free candidate. -/
theorem claim_c7_archive_collision (ex : String → Bool) (stem suffix : String)
    (bound j : Nat)
    (hfree : ex (arch_candidate stem suffix bound) = false)
    (h0 : ex (arch_candidate stem suffix 0) = true)
    (hj : j < archive_dest_idx ex stem suffix bound) :
    ex (archive_dest ex stem suffix bound) = false ∧
    1 ≤ archive_dest_idx ex stem suffix bound ∧
    ex (arch_candidate stem suffix j) = true := by
  have hex : ∃ i, 0 ≤ i ∧ i < 0 + (bound + 1) ∧
      ex (arch_candidate stem suffix i) = false :=
    ⟨bound, by omega, by omega, hfree⟩
  have r := search_free_spec ex (arch_candidate stem suffix) (bound + 1) 0 hex
  have hpos : 1 ≤ archive_dest_idx ex stem suffix bound := by
    by_contra hlt
    have h00 : archive_dest_idx ex stem suffix bound = 0 := by
      unfold archive_dest_idx at *
      omega
    have := r.1
    unfold archive_dest_idx at h00
    rw [h00] at this
    rw [this] at h0
    cases h0
  exact ⟨r.1, hpos, r.2.2 j (Nat.zero_le j) hj⟩

/-- A concrete archive-directory membership test used by the C7 witness:
`rec.m4a` and `rec_1.m4a` already exist. -/
def ex_demo : String → Bool := fun s => s == "rec.m4a" || s == "rec_1.m4a"

/-- Witness for C7 at a concrete archive directory containing `rec.m4a`
and `rec_1.m4a`: the chosen index is 2, candidate 1 is occupied, the
destination `rec_2.m4a` is free. -/
theorem claim_c7_witness :
    (ex_demo (arch_candidate "rec" ".m4a" 2) = false ∧
      ex_demo (arch_candidate "rec" ".m4a" 0) = true ∧
      1 < archive_dest_idx ex_demo "rec" ".m4a" 2) ∧
    (ex_demo (archive_dest ex_demo "rec" ".m4a" 2) = false ∧
      1 ≤ archive_dest_idx ex_demo "rec" ".m4a" 2 ∧
      ex_demo (arch_candidate "rec" ".m4a" 1) = true) := by
  exact ⟨⟨by decide, by decide, by decide⟩,
    claim_c7_archive_collision ex_demo "rec" ".m4a" 2 1 (by decide) (by decide) (by decide)⟩

/-- A successful comparison at poll `m`: the size read at poll `m`
equals the one read at poll `m - 1` and is non-zero (this is what makes
the source increment `stable_count`). -/
def SizeSucc (f : Nat → Nat) (m : Nat) : Prop :=
  1 ≤ m ∧ f m = f (m - 1) ∧ 0 < f m

/-- The polling loop performs at most `fuel` iterations. -/
theorem wait_stable_loop_polls_le (sizes : Nat → Option Nat) :
    ∀ fuel i last stable, (wait_stable_loop sizes fuel i last stable).1 ≤ fuel := by
  intro fuel
  induction fuel with
  | zero => intro i last stable; simp [wait_stable_loop]
  | succ n ih =>
    intro i last stable
    simp only [wait_stable_loop]
    cases h : sizes i with
    | none => simpa using Nat.succ_le_succ (ih (i + 1) last stable)
    | some c =>
      by_cases hc : ((c : Int) = last ∧ 0 < c)
      · by_cases hs : 3 ≤ stable + 1
        · simp [hc, hs]
        · simpa [hc, hs] using Nat.succ_le_succ (ih (i + 1) (c : Int) (stable + 1))
      · simpa [hc] using Nat.succ_le_succ (ih (i + 1) (c : Int) 0)

/-- Invariant characterization of the `break` in the stability loop: for
a run whose carried state `(last, stable)` is consistent with the sample
history (and whose success streak is maximal), the loop breaks within
`fuel` iterations from poll `i` exactly when three consecutive
successful comparisons complete at some poll inside the window. -/
theorem wait_stable_loop_broke_iff (f : Nat → Nat) :
    ∀ (fuel i : Nat) (last : Int) (stable : Nat),
      stable ≤ 2 → stable ≤ i →
      (i = 0 → last = -1) →
      (0 < i → last = (f (i - 1) : Int)) →
      (∀ t, 1 ≤ t → t ≤ stable → SizeSucc f (i - t)) →
      (i - stable = 0 ∨ ¬ SizeSucc f (i - stable - 1)) →
      ((wait_stable_loop (fun n => some (f n)) fuel i last stable).2 = true ↔
        ∃ j, i ≤ j ∧ j < i + fuel ∧ SizeSucc f j ∧ SizeSucc f (j - 1) ∧
          SizeSucc f (j - 2)) := by
  intro fuel
  induction fuel with
  | zero =>
    intro i last stable _ _ _ _ _ _
    constructor
    · intro h
      simp [wait_stable_loop] at h
    · rintro ⟨j, h1, h2, -⟩
      omega
  | succ n ih =>
    intro i last stable hst2 hsti hl0 hlp hsucc hmax
    by_cases hcmp : ((f i : Int) = last ∧ 0 < f i)
    · have hi1 : 1 ≤ i := by
        by_contra h0
        have hi0 : i = 0 := by omega
        have hlm := hl0 hi0
        rw [hlm] at hcmp
        have := hcmp.1
        omega
      have hfe : f i = f (i - 1) := by
        have hh := hlp hi1
        rw [hh] at hcmp
        exact_mod_cast hcmp.1
      have hSi : SizeSucc f i := ⟨hi1, hfe, hcmp.2⟩
      by_cases hst : 3 ≤ stable + 1
      · have hred : (wait_stable_loop (fun n => some (f n)) (n + 1) i last stable).2 = true := by
          simp [wait_stable_loop, hcmp, hst]
        have hS1 : SizeSucc f (i - 1) := hsucc 1 (by omega) (by omega)
        have hS2 : SizeSucc f (i - 2) := hsucc 2 (by omega) (by omega)
        rw [hred]
        exact iff_of_true rfl ⟨i, Nat.le_refl i, by omega, hSi, hS1, hS2⟩
      · have hred : (wait_stable_loop (fun n => some (f n)) (n + 1) i last stable).2 =
            (wait_stable_loop (fun n => some (f n)) n (i + 1) ((f i : Int)) (stable + 1)).2 := by
          simp [wait_stable_loop, hcmp, hst]
        have hcons : ∀ t, 1 ≤ t → t ≤ stable + 1 → SizeSucc f (i + 1 - t) := by
          intro t ht1 ht2
          rcases Nat.eq_or_lt_of_le ht1 with he | hlt
          · have e : i + 1 - t = i := by omega
            rw [e]
            exact hSi
          · have h' := hsucc (t - 1) (by omega) (by omega)
            have e : i + 1 - t = i - (t - 1) := by omega
            rw [e]
            exact h'
        have hmax' : (i + 1) - (stable + 1) = 0 ∨
            ¬ SizeSucc f ((i + 1) - (stable + 1) - 1) := by
          have e1 : (i + 1) - (stable + 1) = i - stable := by omega
          rw [e1]
          exact hmax
        have hihres := ih (i + 1) ((f i : Int)) (stable + 1) (by omega) (by omega)
          (fun h => absurd h (by omega))
          (fun _ => by simp)
          hcons hmax'
        rw [hred, hihres]
        constructor
        · rintro ⟨j, hj1, hj2, hT⟩
          exact ⟨j, by omega, by omega, hT⟩
        · rintro ⟨j, hj1, hj2, hT⟩
          rcases Nat.eq_or_lt_of_le hj1 with he | hlt
          · exfalso
            obtain ⟨hSj, hSj1, hSj2⟩ := he ▸ hT
            have hstle : stable ≤ 1 := by omega
            interval_cases stable
            · rcases hmax with h | h
              · omega
              · have e : i - 0 - 1 = i - 1 := by omega
                rw [e] at h
                exact h hSj1
            · rcases hmax with h | h
              · have := hSj2.1
                omega
              · have e : i - 1 - 1 = i - 2 := by omega
                rw [e] at h
                exact h hSj2
          · exact ⟨j, by omega, by omega, hT⟩
    · have hnSi : ¬ SizeSucc f i := by
        intro hS
        obtain ⟨h1, h2, h3⟩ := hS
        exact hcmp ⟨by rw [hlp h1]; exact_mod_cast h2, h3⟩
      have hred : (wait_stable_loop (fun n => some (f n)) (n + 1) i last stable).2 =
          (wait_stable_loop (fun n => some (f n)) n (i + 1) ((f i : Int)) 0).2 := by
        simp [wait_stable_loop, hcmp]
      have hihres := ih (i + 1) ((f i : Int)) 0 (by omega) (by omega)
        (fun h => absurd h (by omega))
        (fun _ => by simp)
        (fun t ht1 ht2 => absurd ht2 (by omega))
        (Or.inr (by simpa using hnSi))
      rw [hred, hihres]
      constructor
      · rintro ⟨j, hj1, hj2, hT⟩
        exact ⟨j, by omega, by omega, hT⟩
      · rintro ⟨j, hj1, hj2, hT⟩
        rcases Nat.eq_or_lt_of_le hj1 with he | hlt
        · exact absurd (he ▸ hT).1 hnSi
        · exact ⟨j, by omega, by omega, hT⟩

/-- Claim C6 (counterexample): a file whose polled size goes
1,1,1,2,2,2,3,… reports the same non-zero value for 3 consecutive
1-second samples (polls 0,1,2 all read 1), yet the loop never declares
it stable and runs all 30 iterations — the source requires the size to
repeat its previous reading on 3 consecutive polls, i.e. 4 equal
consecutive samples, before breaking. -/
theorem claim_c6_counterexample :
    (wait_for_file_stable (fun n => some (n / 3 + 1))).2 = false ∧
    (wait_for_file_stable (fun n => some (n / 3 + 1))).1 = 30 ∧
    (0 : Nat) / 3 + 1 = 1 / 3 + 1 ∧ (1 : Nat) / 3 + 1 = 2 / 3 + 1 ∧
    0 < (0 : Nat) / 3 + 1 := by
  exact ⟨by decide, by decide, by decide, by decide, by decide⟩

/-- Claim C6 (amended): the stability wait performs at most 30 polling
iterations; it declares the file stable (breaking out early) exactly
when some poll `j ≤ 29` and the three polls before it all report the
same non-zero size (4 consecutive equal non-zero readings, i.e. a size
unchanged for 3 consecutive seconds); and `_process_file` dispatches the
file regardless of the outcome — its result does not depend on the
polled sizes at all (the wait only delays). -/
theorem claim_c6_amended (f : Nat → Nat) (env : ProcEnv) (p : FPath) (st : WSt)
    (sizes2 : Nat → Option Nat) :
    (wait_for_file_stable (fun n => some (f n))).1 ≤ 30 ∧
    ((wait_for_file_stable (fun n => some (f n))).2 = true ↔
      ∃ j, j < 30 ∧ 3 ≤ j ∧ 0 < f j ∧ f j = f (j - 1) ∧ f (j - 1) = f (j - 2) ∧
        f (j - 2) = f (j - 3)) ∧
    process_file {env with sizes := sizes2} p st = process_file env p st := by
  refine ⟨wait_stable_loop_polls_le _ 30 0 (-1) 0, ?_, rfl⟩
  have h := wait_stable_loop_broke_iff f 30 0 (-1) 0 (by omega) (by omega)
    (fun _ => rfl) (fun h0 => absurd h0 (by omega))
    (fun t ht1 ht2 => absurd ht2 (by omega)) (Or.inl rfl)
  rw [wait_for_file_stable, h]
  constructor
  · rintro ⟨j, -, hj30, ⟨ha1, ha2, ha3⟩, ⟨hb1, hb2, hb3⟩, ⟨hc1, hc2, hc3⟩⟩
    refine ⟨j, by omega, by omega, ha3, ha2, ?_, ?_⟩
    · have e : j - 1 - 1 = j - 2 := by omega
      rw [← e]
      exact hb2
    · have e : j - 2 - 1 = j - 3 := by omega
      rw [← e]
      exact hc2
  · rintro ⟨j, hj30, hj3, hpos, e1, e2, e3⟩
    have hb2 : f (j - 1) = f (j - 1 - 1) := by
      have e : j - 1 - 1 = j - 2 := by omega
      rw [e]
      exact e2
    have hc2 : f (j - 2) = f (j - 2 - 1) := by
      have e : j - 2 - 1 = j - 3 := by omega
      rw [e]
      exact e3
    have hb3 : 0 < f (j - 1) := by rw [← e1]; exact hpos
    have hc3 : 0 < f (j - 2) := by rw [← e2, ← e1]; exact hpos
    exact ⟨j, by omega, by omega, ⟨by omega, e1, hpos⟩, ⟨by omega, hb2, hb3⟩,
      ⟨by omega, hc2, hc3⟩⟩

/-- Concrete dropped file `/incoming/call.m4a`. -/
def path_a : FPath := ⟨"/incoming", "call", ".m4a"⟩

/-- Fresh watcher state at daemon startup. -/
def wst_init : WSt := ⟨[], [], sm_init, 0, 0, 0, none, none, [], 0, [], [], []⟩

/-- Concrete benign environment: the file stabilizes, `ffprobe` reports
60 s, transcription succeeds with language `sv` and 2 speakers, no
`.noarchive` marker, empty archive directory, all disk writes succeed. -/
def env_ok : ProcEnv where
  sizes := fun _ => some 5
  exists_after_wait := true
  ffprobe_duration := 60
  run_success := true
  run_info := ⟨"sv", 2, none⟩
  marker_exists := false
  archive_ex := fun _ => false
  archive_free_bound := 0
  state_write_ok := true
  history_write_ok := true
  completed_id := "id1"
  failed_id := "id2"
  now := "t1"
  transcripts_dir := "/transcripts"

/-- Same environment, but a sibling `call.m4a.noarchive` marker exists. -/
def env_marker : ProcEnv := {env_ok with marker_exists := true}

/-- Claim C3 (code bug, evaluated at the failing input): processing
`call.m4a` with a sibling `call.m4a.noarchive` after a successful
transcription deletes both files, archives nothing, and records the
completion — but then the success panel interpolates `archive_path`,
which was never assigned in this branch, raising `UnboundLocalError`;
the top-level handler records a failure, so the daemon status becomes
`error` and a `success = false` history entry lands in front of the
`success = true` one, contrary to the claim that no failure is recorded. -/
theorem claim_c3_noarchive_bug :
    (process_file env_marker path_a wst_init).2 = none ∧
    (process_file env_marker path_a wst_init).1.deleted_files =
      ["/incoming/call.m4a", "/incoming/call.m4a.noarchive"] ∧
    (process_file env_marker path_a wst_init).1.archive_adds = [] ∧
    ((process_file env_marker path_a wst_init).1.sm.history[1]?).map
      (fun t => t.success) = some true ∧
    ((process_file env_marker path_a wst_init).1.sm.history[0]?).map
      (fun t => t.success) = some false ∧
    (process_file env_marker path_a wst_init).1.sm.state.status = "error" ∧
    (process_file env_marker path_a wst_init).1.sm.state.error_message =
      some (pyErrMsg PyErr.unboundLocal) ∧
    (process_file env_marker path_a wst_init).1.trace =
      [Act.markProcessing, Act.setTranscribing, Act.runTranscription,
       Act.deleteSource, Act.deleteMarker, Act.markProcessed,
       Act.setCompleted, Act.setFailed, Act.discardProcessing] := by
  refine ⟨by decide, by decide, by decide, by decide, by decide, by decide,
    by decide, by decide⟩

/-- Claim C1 (counterexample): a clean, successful dispatch of
`call.m4a` invokes external processing once, yet zero events are
submitted via the Bridge — in particular no `started` event — because
`_process_file` calls `set_transcribing_sync`, which only writes
`state.json`, and never calls `_emit_event`. -/
theorem claim_c1_counterexample :
    (process_file env_ok path_a wst_init).1.runs = 1 ∧
    (process_file env_ok path_a wst_init).1.bridge_events = [] ∧
    ¬ ("started" ∈ (process_file env_ok path_a wst_init).1.bridge_events) := by
  refine ⟨by decide, by decide, by decide⟩

/-- The two trace entries relevant to claim C1: the `set_transcribing_sync`
call and the external-processing invocation. -/
def key_acts : Act → Bool
  | .setTranscribing => true
  | .runTranscription => true
  | _ => false

/-- Claim C1 (amended): on every dispatch (supported suffix, path not yet
tracked, file still present, disk writes succeeding),
`set_transcribing_sync` is invoked before external processing — the
filtered trace ends with exactly `setTranscribing` followed by
`runTranscription` — but no event is handed to the Bridge: the sync
mutators build no event payload and `_emit_event` is never called, so
`bridge_events` is unchanged and no connected client receives a
`started` event for the file. -/
theorem claim_c1_amended (env : ProcEnv) (p : FPath) (st : WSt)
    (hfmt : SUPPORTED_FORMATS.contains (str_lower p.suffix) = true)
    (hfresh : ¬(p.key ∈ st.processing ∨ p.key ∈ st.processed))
    (hex : env.exists_after_wait = true)
    (hsw : env.state_write_ok = true)
    (hhw : env.history_write_ok = true) :
    (process_file env p st).1.bridge_events = st.bridge_events ∧
    (process_file env p st).1.trace.filter key_acts =
      st.trace.filter key_acts ++ [Act.setTranscribing, Act.runTranscription] ∧
    (process_file env p st).1.runs = st.runs + 1 := by
  obtain ⟨sz, exw, dur, rsu, rinfo, mkr, aex, afb, swo, hwo, cid, fid, now, tdir⟩ := env
  simp only at hex hsw hhw
  subst hex hsw hhw
  have hfmt' : str_lower p.suffix ∈ SUPPORTED_FORMATS := by simpa using hfmt
  cases rsu <;> cases mkr <;>
    simp [process_file, set_transcribing_sync, set_completed_sync, set_failed_sync,
      set_idle, save_state, save_history, except_handler, hfmt', hfresh,
      List.filter_append, key_acts]

/-- Claim C5: under the serialized callback model, a first event for a
fresh supported path whose processing succeeds invokes external
processing exactly once, and a second event for the same path (now in
the `processed` set) performs no action at all — the state is returned
unchanged — so external processing is not invoked again. -/
theorem claim_c5_dedup (env1 env2 : ProcEnv) (p : FPath) (st : WSt)
    (hfmt : SUPPORTED_FORMATS.contains (str_lower p.suffix) = true)
    (hfresh : ¬(p.key ∈ st.processing ∨ p.key ∈ st.processed))
    (hex : env1.exists_after_wait = true)
    (hrun : env1.run_success = true)
    (hsw : env1.state_write_ok = true)
    (hhw : env1.history_write_ok = true) :
    (process_file env1 p st).1.runs = st.runs + 1 ∧
    process_file env2 p (process_file env1 p st).1 =
      ((process_file env1 p st).1, none) := by
  obtain ⟨sz, exw, dur, rsu, rinfo, mkr, aex, afb, swo, hwo, cid, fid, now, tdir⟩ := env1
  simp only at hex hrun hsw hhw
  subst hex hrun hsw hhw
  have hfmt' : str_lower p.suffix ∈ SUPPORTED_FORMATS := by simpa using hfmt
  have hmem : ∀ st' : WSt, p.key ∈ st'.processed →
      process_file env2 p st' = (st', none) := by
    intro st' hm
    rw [process_file]
    rw [if_neg (by simp [hfmt']), if_pos (Or.inr hm)]
  cases mkr <;>
    (constructor
     · simp [process_file, set_transcribing_sync, set_completed_sync, set_failed_sync,
         set_idle, save_state, save_history, except_handler, hfmt', hfresh]
     · apply hmem
       simp [process_file, set_transcribing_sync, set_completed_sync, set_failed_sync,
         set_idle, save_state, save_history, except_handler, hfmt', hfresh])

/-- Witness for C1 at the concrete benign dispatch of `call.m4a`. -/
theorem claim_c1_witness :
    (SUPPORTED_FORMATS.contains (str_lower path_a.suffix) = true ∧
      ¬(path_a.key ∈ wst_init.processing ∨ path_a.key ∈ wst_init.processed) ∧
      env_ok.exists_after_wait = true ∧ env_ok.state_write_ok = true ∧
      env_ok.history_write_ok = true) ∧
    ((process_file env_ok path_a wst_init).1.bridge_events = wst_init.bridge_events ∧
      (process_file env_ok path_a wst_init).1.trace.filter key_acts =
        wst_init.trace.filter key_acts ++ [Act.setTranscribing, Act.runTranscription] ∧
      (process_file env_ok path_a wst_init).1.runs = wst_init.runs + 1) := by
  exact ⟨⟨by decide, by decide, rfl, rfl, rfl⟩,
    claim_c1_amended env_ok path_a wst_init (by decide) (by decide) rfl rfl rfl⟩

/-- Witness for C5 at the concrete input: `call.m4a` is dispatched once
and a duplicate event (even under a different environment) is a no-op. -/
theorem claim_c5_witness :
    (SUPPORTED_FORMATS.contains (str_lower path_a.suffix) = true ∧
      ¬(path_a.key ∈ wst_init.processing ∨ path_a.key ∈ wst_init.processed) ∧
      env_ok.exists_after_wait = true ∧ env_ok.run_success = true ∧
      env_ok.state_write_ok = true ∧ env_ok.history_write_ok = true) ∧
    ((process_file env_ok path_a wst_init).1.runs = wst_init.runs + 1 ∧
      process_file env_marker path_a (process_file env_ok path_a wst_init).1 =
        ((process_file env_ok path_a wst_init).1, none)) := by
  exact ⟨⟨by decide, by decide, rfl, rfl, rfl, rfl⟩,
    claim_c5_dedup env_ok env_marker path_a wst_init (by decide) (by decide)
      rfl rfl rfl rfl⟩
